import Mathlib

/-!
Verification of the Veyra scoring and ranking core.

Shallow embedding of the streak / leaderboard engine of the Veyra backend.

Conventions of the embedding:
* Instants are integer milliseconds since the Unix epoch, in UTC.  The server
  is assumed to run with a UTC clock, so the local-time `Date` methods used by
  the `utils` helpers (`getDay`, `setHours`) coincide with the UTC ones used
  by `week.service.ts` (`getUTCDay`, `setUTCHours`).
* JS `number` score arithmetic is modelled over `ℚ` (exact real-number
  semantics of the arithmetic expressions appearing in the source).
* Database documents are Lean structures restricted to the fields the core
  logic reads or writes; persistence is explicit state passing.
-/

/-- Milliseconds per day. -/
def msPerDay : Int := 86400000

/-- JS `d.setUTCHours(0, 0, 0, 0)`: truncate an instant to its UTC midnight
(`Int.ediv` by a positive constant is floor division, matching JS `Date`). -/
def midnightMs (t : Int) : Int := t / msPerDay * msPerDay

/-- JS `d.getUTCDay()`: weekday of an instant, `0` = Sunday … `6` = Saturday
(epoch day 0, 1970-01-01, was a Thursday, hence the `+ 4`). -/
def weekdayOfMs (t : Int) : Int := (t / msPerDay + 4) % 7

namespace WeekService

/-- Return type of `getWeekBoundaries` in `src/services/week.service.ts`
(the source field `end` is a Lean keyword, renamed `end_`). -/
structure WeekBoundaries where
  start : Int
  end_ : Int
deriving DecidableEq, Repr

/-- Embedding of `getWeekBoundaries` from `src/services/week.service.ts` (UTC variant):
normalize `date` to UTC midnight, step back to the most recent midnight whose
weekday is `weekStartDay`, and end the week 7 days minus 1 ms later
(`weekEnd.setUTCDate(+7)` followed by `setUTCMilliseconds(-1)`). -/
def getWeekBoundaries (date : Int) (weekStartDay : Int) : WeekBoundaries :=
  let d := midnightMs date
  let currentDay := weekdayOfMs d
  let daysSinceStart :=
    if currentDay - weekStartDay < 0 then currentDay - weekStartDay + 7
    else currentDay - weekStartDay
  let weekStart := d - daysSinceStart * msPerDay
  let weekEnd := weekStart + 7 * msPerDay - 1
  { start := weekStart, end_ := weekEnd }

end WeekService

/-- JS `Math.round`: rounds to the nearest integer, halves toward `+∞`
(`Math.round x = ⌊x + 0.5⌋`). -/
def jsMathRound (x : ℚ) : Int := ⌊x + 1 / 2⌋

namespace Utils

/-- Return type of the `utils` `getWeekBoundaries`. -/
structure WeekBoundariesU where
  weekStart : Int
  weekEnd : Int
deriving DecidableEq, Repr

/-- Embedding of `getWeekBoundaries` from the repository `utils` module (local-time `Date`
methods; the server clock is UTC so they coincide with the UTC ones).
`weekStart.setDate(getDate() - daysToSubtract)` then `setHours(0,0,0,0)`;
`weekEnd` is `weekStart + 6` days at `23:59:59.999`. -/
def getWeekBoundaries (date : Int) (weekStartDay : Int) : WeekBoundariesU :=
  let currentDay := weekdayOfMs date
  let daysToSubtract :=
    if currentDay - weekStartDay < 0 then currentDay - weekStartDay + 7
    else currentDay - weekStartDay
  let weekStart := midnightMs (date - daysToSubtract * msPerDay)
  let weekEnd := weekStart + 6 * msPerDay + (msPerDay - 1)
  { weekStart := weekStart, weekEnd := weekEnd }

/-- Embedding of `isPreviousWeek` from the `utils` module: the stored marker equals the
reference week start minus 7 days (absent marker: `false`).  The
`weekStartDay` argument is unused in the source as well. -/
def isPreviousWeek (lastWeekStart : Option Int) (currentWeekStart : Int)
    (weekStartDay : Int) : Bool :=
  match lastWeekStart with
  | none => false
  | some last => last = currentWeekStart - 7 * msPerDay

/-- Embedding of `getStreakMultiplier`, first `utils` variant (the one the spec
standardizes on): `1.0` for `streak ≤ 0`, otherwise
`min (1.0 + streak * 0.12) 3.0`. -/
def getStreakMultiplier (currentStreak : ℚ) : ℚ :=
  if currentStreak ≤ 0 then 1.0
  else min (1.0 + currentStreak * 0.12) 3.0

end Utils

namespace UtilsV2

/-- Embedding of `getStreakMultiplier`, second `utils` variant: offset-linear
`1.12 + (streak - 1) * 0.1`, rounded to 2 decimals with `Math.round`,
capped at `3.0`. -/
def getStreakMultiplier (currentStreak : ℚ) : ℚ :=
  if currentStreak ≤ 0 then 1.0
  else min ((jsMathRound ((1.12 + (currentStreak - 1) * 0.1) * 100) : ℚ) / 100) 3.0

end UtilsV2

namespace UtilsV3

/-- Embedding of `getStreakMultiplier`, third `utils` variant (weekly):
`1.0 + streak * 0.1`, capped at `2.0`. -/
def getStreakMultiplier (currentStreak : ℚ) : ℚ :=
  if currentStreak ≤ 0 then 1.0
  else min (1.0 + currentStreak * 0.1) 2.0

end UtilsV3

namespace SubmissionController

/-- The streak-bearing fields of `src/models/TrackMembership.ts` (daily
variant; `role`, `status` and ban fields are never read or written by the
scoring core and are omitted). -/
structure TrackMembership where
  currentStreak : Nat
  longestStreak : Nat
  lastSubmissionDate : Option Int
deriving DecidableEq, Repr

/-- Constant `DAILY_SUBMISSION_POINTS`: fixed points for approved submissions in the
daily variant. -/
def DAILY_SUBMISSION_POINTS : ℚ := 10

/-- The streak update performed inline by the approval branch of
`verifySubmission` in `src/controllers/submission.controller.ts`
(lines 346-380), as a function of the membership and the submission date:
normalize both dates to midnight; marker on the previous day increments the
streak, any other distinct marker (or no marker) resets it to 1, the same day
leaves it unchanged; `longestStreak` is bumped to the new maximum and the
marker becomes the normalized submission date. -/
def updateStreak (membership : TrackMembership) (submissionDate0 : Int) :
    TrackMembership :=
  let submissionDate := midnightMs submissionDate0
  let currentStreak :=
    match membership.lastSubmissionDate with
    | some lastDate =>
        let lastDateStart := midnightMs lastDate
        let dayBefore := submissionDate - msPerDay
        if lastDateStart = dayBefore then membership.currentStreak + 1
        else if lastDateStart ≠ submissionDate then 1
        else membership.currentStreak
    | none => 1
  let longestStreak :=
    if currentStreak > membership.longestStreak then currentStreak
    else membership.longestStreak
  { currentStreak := currentStreak, longestStreak := longestStreak,
    lastSubmissionDate := some submissionDate }

/-- Membership states reachable in the daily variant: created with the schema
defaults (`currentStreak = 0`, `longestStreak = 0`, no activity marker), then
any sequence of approvals (streak update) and rejections (rejection performs
no membership write at all, so it is the identity on the membership). -/
inductive Reachable : TrackMembership → Prop where
  | init : Reachable ⟨0, 0, none⟩
  | approve {m} (date : Int) : Reachable m → Reachable (updateStreak m date)
  | reject {m} : Reachable m → Reachable m

end SubmissionController

namespace LeaderboardController

/-- The streak-bearing fields of the weekly `trackMembershipSchema`
(`lastSubmissionWeek` stores the start of the last approved week). -/
structure TrackMembership where
  currentStreak : Nat
  longestStreak : Nat
  lastSubmissionWeek : Option Int
deriving DecidableEq, Repr

/-- The streak update performed inline by the approval branch of
`verifySubmission` in `src/controllers/leaderboard.controller.ts`
(lines 427-451): re-normalize the `weekStart` of the submission with the `utils`
`getWeekBoundaries`, then: marker exactly one week back (`isPreviousWeek`)
increments the streak, an absent or different marker resets it to 1, the same
week leaves it unchanged; `longestStreak` is bumped to the new maximum and
the marker becomes the normalized week start. -/
def updateStreak (membership : TrackMembership) (submissionWeekStart : Int)
    (weekStartDay : Int) : TrackMembership :=
  let currentWeekStart :=
    (Utils.getWeekBoundaries submissionWeekStart weekStartDay).weekStart
  let currentStreak :=
    if Utils.isPreviousWeek membership.lastSubmissionWeek currentWeekStart
        weekStartDay then
      membership.currentStreak + 1
    else if membership.lastSubmissionWeek = none ∨
        membership.lastSubmissionWeek ≠ some currentWeekStart then 1
    else membership.currentStreak
  let longestStreak :=
    if currentStreak > membership.longestStreak then currentStreak
    else membership.longestStreak
  { currentStreak := currentStreak, longestStreak := longestStreak,
    lastSubmissionWeek := some currentWeekStart }

/-- Membership states reachable in the weekly variant: schema defaults, then
any sequence of approvals (streak update) and rejections (identity on the
membership). -/
inductive Reachable : TrackMembership → Prop where
  | init : Reachable ⟨0, 0, none⟩
  | approve {m} (weekStart weekStartDay : Int) :
      Reachable m → Reachable (updateStreak m weekStart weekStartDay)
  | reject {m} : Reachable m → Reachable m

end LeaderboardController

/-- Submission lifecycle state (`status` enum of `submissionSchema`). -/
inductive SubmissionStatus where
  | pending
  | approved
  | rejected
deriving DecidableEq, Repr

/-- The decision sent in the verify request body, after the
`[..approved, rejected..].includes(status)` validation. -/
inductive Decision where
  | approved
  | rejected
deriving DecidableEq, Repr

/-- The fields of `submissionSchema` read or written by the scoring core
(free-text `description` and the proof reference are payload only and are
omitted).  `submissionDate` is used by the daily variant,
`weekStart`/`weekEnd` by the weekly one. -/
structure Submission where
  userId : Nat
  trackId : Nat
  submissionDate : Int
  weekStart : Int
  weekEnd : Int
  status : SubmissionStatus
  score : Option ℚ
  verifiedBy : Option Nat
  verifiedAt : Option Int
deriving DecidableEq, Repr

/-- Track fields used by verification and leaderboards. -/
structure Track where
  weekStartDay : Int
  minScore : ℚ
  maxScore : ℚ
deriving DecidableEq, Repr

/-- Outcome of a verify call: `ok` carries the submission and (optional)
membership exactly as the controller saves them; `error` is an HTTP error
response, and the controller performs no write on any error path. -/
inductive VerifyResult (μ : Type) where
  | ok (submission : Submission) (membership : Option μ)
  | error (statusCode : Nat) (message : String)
deriving DecidableEq, Repr

namespace SubmissionController

/-- Embedding of `verifySubmission` from `src/controllers/submission.controller.ts`
(decision logic, lines 330-398; submission lookup and the admin
authorization gate are upstream guards that touch no state).  A decided
submission is rejected with an error response (default HTTP 400); on
approval the flat 10 points are assigned and the streak update runs on the
membership when one exists (`if (membership)` silently skips a missing one);
on rejection the score is 0 and the membership is untouched; finally status,
verifier and decision time are stamped. -/
def verifySubmission (submission : Submission)
    (membership : Option TrackMembership) (decision : Decision)
    (verifierId : Nat) (now : Int) : VerifyResult TrackMembership :=
  if submission.status ≠ SubmissionStatus.pending then
    VerifyResult.error 400 "Submission has already been verified"
  else
    match decision with
    | Decision.approved =>
        let submission1 :=
          { submission with score := some DAILY_SUBMISSION_POINTS }
        let membership1 :=
          membership.map (fun m => updateStreak m submission.submissionDate)
        VerifyResult.ok
          { submission1 with
            status := SubmissionStatus.approved
            verifiedBy := some verifierId
            verifiedAt := some now }
          membership1
    | Decision.rejected =>
        VerifyResult.ok
          { submission with
            score := some 0
            status := SubmissionStatus.rejected
            verifiedBy := some verifierId
            verifiedAt := some now }
          membership

/-- The persistent documents touched by the approval path of the daily
`verifySubmission`. -/
structure VerifyState where
  submission : Submission
  membership : TrackMembership
deriving DecidableEq, Repr

/-- Committed database state of the daily approval path after the first
`savesDone` single-document writes succeeded.  The source awaits
`membership.save()` (line 380) and then `submission.save()` (line 391) with
no surrounding transaction, so `savesDone = 1` is the state left behind when
the second write fails. -/
def approvalCommitted (st : VerifyState) (verifierId : Nat) (now : Int)
    (savesDone : Nat) : VerifyState :=
  let afterMembershipSave :=
    { st with membership :=
        updateStreak st.membership st.submission.submissionDate }
  let afterSubmissionSave :=
    { afterMembershipSave with submission :=
        { st.submission with
          score := some DAILY_SUBMISSION_POINTS
          status := SubmissionStatus.approved
          verifiedBy := some verifierId
          verifiedAt := some now } }
  if savesDone = 0 then st
  else if savesDone = 1 then afterMembershipSave
  else afterSubmissionSave

/-- The duplicate guard of the daily `createSubmission`: `findOne` on
`(userId, trackId, submissionDate = today)`. -/
def matchesToday (userId trackId : Nat) (today : Int) (s : Submission) : Bool :=
  decide (s.userId = userId ∧ s.trackId = trackId ∧ s.submissionDate = today)

/-- Embedding of `createSubmission` from `src/controllers/submission.controller.ts`
(lines 54-77, after input validation and track lookup): conflict 409 when a
submission by the same user, track and normalized day already exists,
otherwise persist a new pending submission.  Returns the response and the
resulting store. -/
def createSubmission (store : List Submission) (userId trackId : Nat)
    (today weekStart weekEnd : Int) :
    VerifyResult TrackMembership × List Submission :=
  if store.any (matchesToday userId trackId today) then
    (VerifyResult.error 409 "You have already submitted today", store)
  else
    let submission : Submission :=
      { userId := userId
        trackId := trackId
        submissionDate := today
        weekStart := weekStart
        weekEnd := weekEnd
        status := SubmissionStatus.pending
        score := none
        verifiedBy := none
        verifiedAt := none }
    (VerifyResult.ok submission none, submission :: store)

end SubmissionController

namespace LeaderboardController

/-- Embedding of `verifySubmission` from `src/controllers/leaderboard.controller.ts`
(decision logic, lines 378-467).  NOTE: unlike the daily controller, this
variant never checks `submission.status`, so it re-processes already-decided
submissions.  On approval the supplied score is required and validated
against the track bounds, then assigned, and the streak update runs on the
membership when one exists; on rejection no score is assigned; finally
status, verifier and decision time are stamped. -/
def verifySubmission (submission : Submission) (track : Track)
    (membership : Option TrackMembership) (decision : Decision)
    (score : Option ℚ) (verifierId : Nat) (now : Int) :
    VerifyResult TrackMembership :=
  match decision with
  | Decision.approved =>
      match score with
      | none => VerifyResult.error 400 "Score is required when approving"
      | some sc =>
          if sc < track.minScore ∨ sc > track.maxScore then
            VerifyResult.error 400 "Score must be between minScore and maxScore"
          else
            let submission1 := { submission with score := some sc }
            let membership1 :=
              membership.map
                (fun m => updateStreak m submission.weekStart track.weekStartDay)
            VerifyResult.ok
              { submission1 with
                status := SubmissionStatus.approved
                verifiedBy := some verifierId
                verifiedAt := some now }
              membership1
  | Decision.rejected =>
      VerifyResult.ok
        { submission with
          status := SubmissionStatus.rejected
          verifiedBy := some verifierId
          verifiedAt := some now }
        membership

/-- The duplicate guard of the weekly `createSubmission`: `findOne` on
`(userId, trackId, weekStart)` — the key of the unique compound index of
`submissionSchema`. -/
def matchesWeek (userId trackId : Nat) (weekStart : Int) (s : Submission) : Bool :=
  decide (s.userId = userId ∧ s.trackId = trackId ∧ s.weekStart = weekStart)

/-- Embedding of `createSubmission` from `src/controllers/leaderboard.controller.ts`
(lines 142-175, after input validation and track lookup): conflict 409 when
a submission by the same user, track and week already exists, otherwise
persist a new pending submission. -/
def createSubmission (store : List Submission) (userId trackId : Nat)
    (weekStart weekEnd : Int) :
    VerifyResult TrackMembership × List Submission :=
  if store.any (matchesWeek userId trackId weekStart) then
    (VerifyResult.error 409 "You have already submitted for this week", store)
  else
    let submission : Submission :=
      { userId := userId
        trackId := trackId
        submissionDate := weekStart
        weekStart := weekStart
        weekEnd := weekEnd
        status := SubmissionStatus.pending
        score := none
        verifiedBy := none
        verifiedAt := none }
    (VerifyResult.ok submission none, submission :: store)

end LeaderboardController

namespace LeaderboardService

/-- One row of the aggregation pipeline output of `getWeeklyLeaderboard`
(stages 1-6 in `src/services/leaderboard.service.ts`): per-user sum of
approved scores for the requested week (`baseScore`), the submission count,
and the joined membership streak fields (defaulting to 0 when the membership
lookup is empty).  The member identity key is modelled as `Nat`. -/
structure AggRow where
  userId : Nat
  displayName : String
  avatarUrl : String
  baseScore : ℚ
  submissionCount : Nat
  currentStreak : Nat
  longestStreak : Nat
deriving DecidableEq, Repr

/-- A leaderboard entry before rank assignment, as built by the `map` at
lines 88-102 of `src/services/leaderboard.service.ts`. -/
structure ScoredEntry where
  userId : Nat
  userName : String
  avatarUrl : String
  baseScore : ℚ
  submissionCount : Nat
  currentStreak : Nat
  longestStreak : Nat
  streakMultiplier : ℚ
  totalScore : ℚ
deriving DecidableEq, Repr

/-- A final leaderboard entry (scored entry plus `rank`). -/
structure LeaderboardEntry where
  userId : Nat
  userName : String
  avatarUrl : String
  baseScore : ℚ
  submissionCount : Nat
  currentStreak : Nat
  longestStreak : Nat
  streakMultiplier : ℚ
  totalScore : ℚ
  rank : Nat
deriving DecidableEq, Repr

/-- The scoring `map` of `getWeeklyLeaderboard`:
`totalScore = Math.round(baseScore * streakMultiplier * 100) / 100`, using
the spec-standardized multiplier variant. -/
def scoreEntry (entry : AggRow) : ScoredEntry :=
  let streakMultiplier := Utils.getStreakMultiplier entry.currentStreak
  let totalScore :=
    (jsMathRound (entry.baseScore * streakMultiplier * 100) : ℚ) / 100
  { userId := entry.userId
    userName := entry.displayName
    avatarUrl := entry.avatarUrl
    baseScore := entry.baseScore
    submissionCount := entry.submissionCount
    currentStreak := entry.currentStreak
    longestStreak := entry.longestStreak
    streakMultiplier := streakMultiplier
    totalScore := totalScore }

/-- The total preorder sorted by
`leaderboardWithMultipliers.sort((a, b) => b.totalScore - a.totalScore)`. -/
def byTotalScoreDesc (a b : ScoredEntry) : Prop := b.totalScore ≤ a.totalScore

instance : DecidableRel byTotalScoreDesc :=
  fun a b => inferInstanceAs (Decidable (b.totalScore ≤ a.totalScore))

instance : IsTotal ScoredEntry byTotalScoreDesc :=
  ⟨fun a b => le_total b.totalScore a.totalScore⟩

instance : IsTrans ScoredEntry byTotalScoreDesc :=
  ⟨fun _ _ _ h1 h2 => le_trans h2 h1⟩

/-- The rank-assignment `map((entry, index) => ({...entry, rank: index + 1}))`;
`i` counts the entries already emitted. -/
def addRanks : List ScoredEntry → Nat → List LeaderboardEntry
  | [], _ => []
  | e :: rest, i =>
      { userId := e.userId
        userName := e.userName
        avatarUrl := e.avatarUrl
        baseScore := e.baseScore
        submissionCount := e.submissionCount
        currentStreak := e.currentStreak
        longestStreak := e.longestStreak
        streakMultiplier := e.streakMultiplier
        totalScore := e.totalScore
        rank := i + 1 } :: addRanks rest (i + 1)

/-- Forget the rank of a final entry. -/
def dropRank (e : LeaderboardEntry) : ScoredEntry :=
  { userId := e.userId
    userName := e.userName
    avatarUrl := e.avatarUrl
    baseScore := e.baseScore
    submissionCount := e.submissionCount
    currentStreak := e.currentStreak
    longestStreak := e.longestStreak
    streakMultiplier := e.streakMultiplier
    totalScore := e.totalScore }

/-- The pure part of `getWeeklyLeaderboard`
(`src/services/leaderboard.service.ts` lines 88-111) applied to the
aggregation rows: apply the streak multiplier and rounding, sort descending
by `totalScore` (ES2019 `Array.prototype.sort` is stable, and a stable sort
by this total preorder is exactly insertion sort), then assign
`rank = index + 1`. -/
def getWeeklyLeaderboard (rows : List AggRow) : List LeaderboardEntry :=
  addRanks (List.insertionSort byTotalScoreDesc (rows.map scoreEntry)) 0

end LeaderboardService

/-- Normalizing to midnight leaves the epoch-day number unchanged. -/
theorem midnightMs_ediv (t : Int) : midnightMs t / msPerDay = t / msPerDay := by
  simp only [midnightMs, msPerDay]; omega

/-- Normalizing to midnight leaves the weekday unchanged. -/
theorem weekdayOfMs_midnightMs (t : Int) :
    weekdayOfMs (midnightMs t) = weekdayOfMs t := by
  simp only [weekdayOfMs]; rw [midnightMs_ediv]

/-- C3: for every instant and every `periodStartDay d ∈ 0..6`,
`getWeekBoundaries` returns a `start` that is a UTC midnight, has weekday `d`,
is not after the normalized midnight of the instant, and equals
`midnight(instant) - ((weekdayOf(instant) - d) mod 7)` days (hence is the most
recent such midnight); the `end` is `start + 7 days - 1 millisecond`. -/
theorem C3_getWeekBoundaries_correct (t d : Int) (h0 : 0 ≤ d) (h7 : d < 7) :
    (WeekService.getWeekBoundaries t d).start % msPerDay = 0 ∧
    weekdayOfMs (WeekService.getWeekBoundaries t d).start = d ∧
    (WeekService.getWeekBoundaries t d).start ≤ midnightMs t ∧
    (WeekService.getWeekBoundaries t d).start
      = midnightMs t - (weekdayOfMs t - d) % 7 * msPerDay ∧
    (WeekService.getWeekBoundaries t d).end_
      = (WeekService.getWeekBoundaries t d).start + 7 * msPerDay - 1 := by
  simp only [WeekService.getWeekBoundaries, weekdayOfMs_midnightMs]
  simp only [midnightMs, weekdayOfMs, msPerDay]
  split_ifs <;> refine ⟨by omega, by omega, by omega, by omega, by trivial⟩

/-- Witness for C3 at the concrete instant 1700000000000 ms
(2023-11-14, a Tuesday) with period start day 1 (Monday). -/
theorem C3_witness :
    (0 : Int) ≤ 1 ∧ (1 : Int) < 7 ∧
    ((WeekService.getWeekBoundaries 1700000000000 1).start % msPerDay = 0 ∧
     weekdayOfMs (WeekService.getWeekBoundaries 1700000000000 1).start = 1 ∧
     (WeekService.getWeekBoundaries 1700000000000 1).start
        ≤ midnightMs 1700000000000 ∧
     (WeekService.getWeekBoundaries 1700000000000 1).start
        = midnightMs 1700000000000
            - (weekdayOfMs 1700000000000 - 1) % 7 * msPerDay ∧
     (WeekService.getWeekBoundaries 1700000000000 1).end_
        = (WeekService.getWeekBoundaries 1700000000000 1).start
            + 7 * msPerDay - 1) :=
  ⟨by decide, by decide,
   C3_getWeekBoundaries_correct 1700000000000 1 (by decide) (by decide)⟩

/-- Lemma: `Math.round` is monotone. -/
theorem jsMathRound_mono {x y : ℚ} (h : x ≤ y) : jsMathRound x ≤ jsMathRound y :=
  Int.floor_le_floor (by linarith)

/-- The first multiplier variant is at least `1`. -/
theorem one_le_getStreakMultiplier_A (s : ℕ) : 1 ≤ Utils.getStreakMultiplier s := by
  unfold Utils.getStreakMultiplier
  split_ifs with h
  · norm_num
  · refine le_min ?_ (by norm_num)
    have hs : (0 : ℚ) ≤ (s : ℚ) := Nat.cast_nonneg s
    nlinarith

/-- The second multiplier variant is at least `1`. -/
theorem one_le_getStreakMultiplier_B (s : ℕ) : 1 ≤ UtilsV2.getStreakMultiplier s := by
  unfold UtilsV2.getStreakMultiplier
  split_ifs with h
  · norm_num
  · refine le_min ?_ (by norm_num)
    have hs : (1 : ℚ) ≤ (s : ℚ) := by
      have : ¬ (s = 0) := by
        intro h0
        simp [h0] at h
      exact_mod_cast Nat.one_le_iff_ne_zero.mpr this
    have h112 : (112 : ℤ) ≤ jsMathRound ((1.12 + ((s : ℚ) - 1) * 0.1) * 100) := by
      rw [jsMathRound, Int.le_floor]
      nlinarith
    have : (112 : ℚ) ≤ (jsMathRound ((1.12 + ((s : ℚ) - 1) * 0.1) * 100) : ℚ) := by
      exact_mod_cast h112
    linarith

/-- The third multiplier variant is at least `1`. -/
theorem one_le_getStreakMultiplier_C (s : ℕ) : 1 ≤ UtilsV3.getStreakMultiplier s := by
  unfold UtilsV3.getStreakMultiplier
  split_ifs with h
  · norm_num
  · refine le_min ?_ (by norm_num)
    have hs : (0 : ℚ) ≤ (s : ℚ) := Nat.cast_nonneg s
    nlinarith

/-- The first multiplier variant is monotone on natural streaks. -/
theorem getStreakMultiplier_A_mono {s u : ℕ} (h : s ≤ u) :
    Utils.getStreakMultiplier s ≤ Utils.getStreakMultiplier u := by
  rcases Nat.eq_zero_or_pos s with rfl | hs
  · have h0 : Utils.getStreakMultiplier ((0 : ℕ) : ℚ) = 1 := by
      norm_num [Utils.getStreakMultiplier]
    rw [h0]
    exact one_le_getStreakMultiplier_A u
  · have hs' : ¬ ((s : ℚ) ≤ 0) := by
      exact not_le.mpr (by exact_mod_cast hs)
    have hu' : ¬ ((u : ℚ) ≤ 0) := by
      exact not_le.mpr (by exact_mod_cast lt_of_lt_of_le hs h)
    have hsu : (s : ℚ) ≤ (u : ℚ) := by exact_mod_cast h
    simp only [Utils.getStreakMultiplier, if_neg hs', if_neg hu']
    exact min_le_min (by nlinarith) le_rfl

/-- The second multiplier variant is monotone on natural streaks. -/
theorem getStreakMultiplier_B_mono {s u : ℕ} (h : s ≤ u) :
    UtilsV2.getStreakMultiplier s ≤ UtilsV2.getStreakMultiplier u := by
  rcases Nat.eq_zero_or_pos s with rfl | hs
  · have h0 : UtilsV2.getStreakMultiplier ((0 : ℕ) : ℚ) = 1 := by
      norm_num [UtilsV2.getStreakMultiplier]
    rw [h0]
    exact one_le_getStreakMultiplier_B u
  · have hs' : ¬ ((s : ℚ) ≤ 0) := by
      exact not_le.mpr (by exact_mod_cast hs)
    have hu' : ¬ ((u : ℚ) ≤ 0) := by
      exact not_le.mpr (by exact_mod_cast lt_of_lt_of_le hs h)
    have hsu : (s : ℚ) ≤ (u : ℚ) := by exact_mod_cast h
    simp only [UtilsV2.getStreakMultiplier, if_neg hs', if_neg hu']
    refine min_le_min ?_ le_rfl
    have hr : jsMathRound ((1.12 + ((s : ℚ) - 1) * 0.1) * 100)
        ≤ jsMathRound ((1.12 + ((u : ℚ) - 1) * 0.1) * 100) :=
      jsMathRound_mono (by nlinarith)
    have hr' : (jsMathRound ((1.12 + ((s : ℚ) - 1) * 0.1) * 100) : ℚ)
        ≤ (jsMathRound ((1.12 + ((u : ℚ) - 1) * 0.1) * 100) : ℚ) := by
      exact_mod_cast hr
    linarith

/-- The third multiplier variant is monotone on natural streaks. -/
theorem getStreakMultiplier_C_mono {s u : ℕ} (h : s ≤ u) :
    UtilsV3.getStreakMultiplier s ≤ UtilsV3.getStreakMultiplier u := by
  rcases Nat.eq_zero_or_pos s with rfl | hs
  · have h0 : UtilsV3.getStreakMultiplier ((0 : ℕ) : ℚ) = 1 := by
      norm_num [UtilsV3.getStreakMultiplier]
    rw [h0]
    exact one_le_getStreakMultiplier_C u
  · have hs' : ¬ ((s : ℚ) ≤ 0) := by
      exact not_le.mpr (by exact_mod_cast hs)
    have hu' : ¬ ((u : ℚ) ≤ 0) := by
      exact not_le.mpr (by exact_mod_cast lt_of_lt_of_le hs h)
    have hsu : (s : ℚ) ≤ (u : ℚ) := by exact_mod_cast h
    simp only [UtilsV3.getStreakMultiplier, if_neg hs', if_neg hu']
    exact min_le_min (by nlinarith) le_rfl

/-- C4: on non-negative integer streaks the spec-standardized
`getStreakMultiplier` is `1.0` at `streak = 0` and
`min (1.0 + streak * 0.12) 3.0` otherwise (definitional equality); all three
source variants are monotonically non-decreasing, and each never exceeds its
configured cap (`3.0`, `3.0`, `2.0` respectively) for any streak. -/
theorem C4_getStreakMultiplier_spec :
    (∀ s : ℕ, Utils.getStreakMultiplier s
        = if (s : ℚ) ≤ 0 then 1.0 else min (1.0 + (s : ℚ) * 0.12) 3.0) ∧
    (∀ s u : ℕ, s ≤ u →
        Utils.getStreakMultiplier s ≤ Utils.getStreakMultiplier u) ∧
    (∀ s : ℕ, Utils.getStreakMultiplier s ≤ 3.0) ∧
    (∀ s u : ℕ, s ≤ u →
        UtilsV2.getStreakMultiplier s ≤ UtilsV2.getStreakMultiplier u) ∧
    (∀ s : ℕ, UtilsV2.getStreakMultiplier s ≤ 3.0) ∧
    (∀ s u : ℕ, s ≤ u →
        UtilsV3.getStreakMultiplier s ≤ UtilsV3.getStreakMultiplier u) ∧
    (∀ s : ℕ, UtilsV3.getStreakMultiplier s ≤ 2.0) := by
  refine ⟨fun s => rfl, fun s u h => getStreakMultiplier_A_mono h, ?_,
    fun s u h => getStreakMultiplier_B_mono h, ?_,
    fun s u h => getStreakMultiplier_C_mono h, ?_⟩
  · intro s
    unfold Utils.getStreakMultiplier
    split_ifs
    · norm_num
    · exact le_trans (min_le_right _ _) (by norm_num)
  · intro s
    unfold UtilsV2.getStreakMultiplier
    split_ifs
    · norm_num
    · exact le_trans (min_le_right _ _) (by norm_num)
  · intro s
    unfold UtilsV3.getStreakMultiplier
    split_ifs
    · norm_num
    · exact le_trans (min_le_right _ _) (by norm_num)

/-- Witness for C4: monotonicity instances at `3 ≤ 5` and the caps at
streak `10000` for all three multiplier variants. -/
theorem C4_witness :
    Utils.getStreakMultiplier 3 ≤ Utils.getStreakMultiplier 5 ∧
    Utils.getStreakMultiplier 10000 ≤ 3.0 ∧
    UtilsV2.getStreakMultiplier 3 ≤ UtilsV2.getStreakMultiplier 5 ∧
    UtilsV2.getStreakMultiplier 10000 ≤ 3.0 ∧
    UtilsV3.getStreakMultiplier 3 ≤ UtilsV3.getStreakMultiplier 5 ∧
    UtilsV3.getStreakMultiplier 10000 ≤ 2.0 :=
  ⟨by exact_mod_cast C4_getStreakMultiplier_spec.2.1 3 5 (by norm_num),
   by exact_mod_cast C4_getStreakMultiplier_spec.2.2.1 10000,
   by exact_mod_cast C4_getStreakMultiplier_spec.2.2.2.1 3 5 (by norm_num),
   by exact_mod_cast C4_getStreakMultiplier_spec.2.2.2.2.1 10000,
   by exact_mod_cast C4_getStreakMultiplier_spec.2.2.2.2.2.1 3 5 (by norm_num),
   by exact_mod_cast C4_getStreakMultiplier_spec.2.2.2.2.2.2 10000⟩

/-- C1: for every membership state and approval event, in both streak
disciplines: a marker exactly one day (resp. one period) before the
normalized event day (resp. period start) increments `currentStreak` by exactly 1;
a marker equal to the normalized day (period start) leaves it unchanged; an
absent marker or any other marker resets it to 1; and `longestStreak` never
decreases across the update. -/
theorem C1_streak_update_cases :
    (∀ (m : SubmissionController.TrackMembership) (e : Int),
      (∀ x, m.lastSubmissionDate = some x →
        midnightMs x = midnightMs e - msPerDay →
        (SubmissionController.updateStreak m e).currentStreak
          = m.currentStreak + 1) ∧
      (∀ x, m.lastSubmissionDate = some x →
        midnightMs x = midnightMs e →
        (SubmissionController.updateStreak m e).currentStreak
          = m.currentStreak) ∧
      ((m.lastSubmissionDate = none ∨
        (∀ x, m.lastSubmissionDate = some x →
          midnightMs x ≠ midnightMs e ∧
          midnightMs x ≠ midnightMs e - msPerDay)) →
        (SubmissionController.updateStreak m e).currentStreak = 1) ∧
      m.longestStreak ≤ (SubmissionController.updateStreak m e).longestStreak) ∧
    (∀ (m : LeaderboardController.TrackMembership) (w wsd : Int),
      (m.lastSubmissionWeek
          = some ((Utils.getWeekBoundaries w wsd).weekStart - 7 * msPerDay) →
        (LeaderboardController.updateStreak m w wsd).currentStreak
          = m.currentStreak + 1) ∧
      (m.lastSubmissionWeek = some ((Utils.getWeekBoundaries w wsd).weekStart) →
        (LeaderboardController.updateStreak m w wsd).currentStreak
          = m.currentStreak) ∧
      ((m.lastSubmissionWeek = none ∨
        (∀ x, m.lastSubmissionWeek = some x →
          x ≠ (Utils.getWeekBoundaries w wsd).weekStart ∧
          x ≠ (Utils.getWeekBoundaries w wsd).weekStart - 7 * msPerDay)) →
        (LeaderboardController.updateStreak m w wsd).currentStreak = 1) ∧
      m.longestStreak ≤ (LeaderboardController.updateStreak m w wsd).longestStreak) := by
  constructor
  · intro m e
    have hmsne : midnightMs e ≠ midnightMs e - msPerDay := by
      simp only [msPerDay]; omega
    refine ⟨?_, ?_, ?_, ?_⟩
    · intro x hx hprev
      simp [SubmissionController.updateStreak, hx, hprev]
    · intro x hx hsame
      simp [SubmissionController.updateStreak, hx, hsame, hmsne]
    · rintro (hnone | hall)
      · simp [SubmissionController.updateStreak, hnone]
      · cases hm : m.lastSubmissionDate with
        | none => simp [SubmissionController.updateStreak, hm]
        | some x =>
            obtain ⟨h1, h2⟩ := hall x hm
            simp [SubmissionController.updateStreak, hm, h1, h2]
    · cases hm : m.lastSubmissionDate with
      | none =>
          simp only [SubmissionController.updateStreak, hm]
          split_ifs <;> omega
      | some x =>
          simp only [SubmissionController.updateStreak, hm]
          split_ifs <;> omega
  · intro m w wsd
    have hwne : (Utils.getWeekBoundaries w wsd).weekStart
        ≠ (Utils.getWeekBoundaries w wsd).weekStart - 7 * msPerDay := by
      simp only [msPerDay]; omega
    refine ⟨?_, ?_, ?_, ?_⟩
    · intro hprev
      simp [LeaderboardController.updateStreak, Utils.isPreviousWeek, hprev]
    · intro hsame
      simp [LeaderboardController.updateStreak, Utils.isPreviousWeek, hsame, hwne]
    · rintro (hnone | hall)
      · simp [LeaderboardController.updateStreak, Utils.isPreviousWeek, hnone]
      · cases hm : m.lastSubmissionWeek with
        | none =>
            simp [LeaderboardController.updateStreak, Utils.isPreviousWeek, hm]
        | some x =>
            obtain ⟨h1, h2⟩ := hall x hm
            simp [LeaderboardController.updateStreak, Utils.isPreviousWeek, hm,
              h1, h2]
    · cases hm : m.lastSubmissionWeek with
      | none =>
          simp only [LeaderboardController.updateStreak, Utils.isPreviousWeek, hm]
          split_ifs <;> omega
      | some x =>
          simp only [LeaderboardController.updateStreak, Utils.isPreviousWeek, hm]
          split_ifs <;> omega

/-- Witness for C1: a membership with streak 2 whose marker is day 19700
approved on day 19701 moves to streak 3 in the daily discipline, and the
analogous consecutive-week approval moves to streak 3 in the weekly
discipline. -/
theorem C1_witness :
    (SubmissionController.updateStreak
        ⟨2, 2, some (19700 * 86400000)⟩ (19701 * 86400000)).currentStreak
      = 2 + 1 ∧
    (LeaderboardController.updateStreak
        ⟨2, 2, some ((Utils.getWeekBoundaries (19701 * 86400000) 1).weekStart
          - 7 * msPerDay)⟩ (19701 * 86400000) 1).currentStreak
      = 2 + 1 :=
  ⟨(C1_streak_update_cases.1 ⟨2, 2, some (19700 * 86400000)⟩
      (19701 * 86400000)).1 (19700 * 86400000) rfl (by decide),
   (C1_streak_update_cases.2 ⟨2, 2, some ((Utils.getWeekBoundaries
      (19701 * 86400000) 1).weekStart - 7 * msPerDay)⟩
      (19701 * 86400000) 1).1 rfl⟩

/-- One daily streak update always re-establishes
`currentStreak ≤ longestStreak`. -/
theorem daily_update_inv (m : SubmissionController.TrackMembership) (d : Int) :
    (SubmissionController.updateStreak m d).currentStreak
      ≤ (SubmissionController.updateStreak m d).longestStreak := by
  cases hm : m.lastSubmissionDate with
  | none =>
      simp only [SubmissionController.updateStreak, hm]
      split_ifs <;> omega
  | some x =>
      simp only [SubmissionController.updateStreak, hm]
      split_ifs <;> omega

/-- One weekly streak update always re-establishes
`currentStreak ≤ longestStreak`. -/
theorem weekly_update_inv (m : LeaderboardController.TrackMembership)
    (w wsd : Int) :
    (LeaderboardController.updateStreak m w wsd).currentStreak
      ≤ (LeaderboardController.updateStreak m w wsd).longestStreak := by
  cases hm : m.lastSubmissionWeek with
  | none =>
      simp only [LeaderboardController.updateStreak, hm]
      split_ifs <;> omega
  | some x =>
      simp only [LeaderboardController.updateStreak, hm]
      split_ifs <;> omega

/-- C7: in both variants, every membership state reachable from creation by
any sequence of approvals and rejections satisfies
`longestStreak ≥ currentStreak`. -/
theorem C7_longest_ge_current :
    (∀ m, SubmissionController.Reachable m →
      m.currentStreak ≤ m.longestStreak) ∧
    (∀ m, LeaderboardController.Reachable m →
      m.currentStreak ≤ m.longestStreak) := by
  constructor
  · intro m h
    induction h with
    | init => exact Nat.le_refl 0
    | approve date _ _ => exact daily_update_inv _ date
    | reject _ ih => exact ih
  · intro m h
    induction h with
    | init => exact Nat.le_refl 0
    | approve w wsd _ _ => exact weekly_update_inv _ w wsd
    | reject _ ih => exact ih

/-- Witness for C7: the invariant at the concrete reachable states obtained
by one approval from a fresh membership, in both variants. -/
theorem C7_witness :
    (SubmissionController.updateStreak ⟨0, 0, none⟩ 0).currentStreak
      ≤ (SubmissionController.updateStreak ⟨0, 0, none⟩ 0).longestStreak ∧
    (LeaderboardController.updateStreak ⟨0, 0, none⟩ 0 1).currentStreak
      ≤ (LeaderboardController.updateStreak ⟨0, 0, none⟩ 0 1).longestStreak :=
  ⟨C7_longest_ge_current.1 _
      (SubmissionController.Reachable.approve 0 SubmissionController.Reachable.init),
   C7_longest_ge_current.2 _
      (LeaderboardController.Reachable.approve 0 1 LeaderboardController.Reachable.init)⟩

/-- C5 (code-bug evidence): the daily `verifySubmission` refuses to
re-verify an already-decided submission with an error response (no write),
but the weekly `verifySubmission` has no finality guard: called again on an
already-approved submission (first decision: score 40, verifier 7, time
1000) it succeeds and overwrites score, verifier and decision timestamp. -/
theorem C5_reverification_divergence :
    SubmissionController.verifySubmission
        ⟨1, 1, 86400000, 0, 604799999, SubmissionStatus.approved, some 10,
          some 7, some 1000⟩ none Decision.approved 8 2000
      = VerifyResult.error 400 "Submission has already been verified" ∧
    LeaderboardController.verifySubmission
        ⟨1, 1, 86400000, 0, 604799999, SubmissionStatus.approved, some 40,
          some 7, some 1000⟩ ⟨1, 0, 100⟩ none Decision.approved (some 50)
        8 2000
      = VerifyResult.ok
          ⟨1, 1, 86400000, 0, 604799999, SubmissionStatus.approved, some 50,
            some 8, some 2000⟩ none := by
  constructor
  · rfl
  · decide

/-- C6 (code-bug evidence): the daily approval path awaits
`membership.save()` before `submission.save()` with no transaction; with
exactly one write committed the persisted state has the streak already
updated (0 → 1) while the submission is still `pending` — the interleaving
the claim rules out.  `savesDone = 2` is the failure-free run. -/
theorem C6_partial_failure_observable :
    (SubmissionController.approvalCommitted
        ⟨⟨1, 1, 86400000, 0, 604799999, SubmissionStatus.pending, none, none,
          none⟩, ⟨0, 0, none⟩⟩ 7 1000 1).membership.currentStreak = 1 ∧
    (SubmissionController.approvalCommitted
        ⟨⟨1, 1, 86400000, 0, 604799999, SubmissionStatus.pending, none, none,
          none⟩, ⟨0, 0, none⟩⟩ 7 1000 1).submission.status
      = SubmissionStatus.pending ∧
    (SubmissionController.approvalCommitted
        ⟨⟨1, 1, 86400000, 0, 604799999, SubmissionStatus.pending, none, none,
          none⟩, ⟨0, 0, none⟩⟩ 7 1000 2).submission.status
      = SubmissionStatus.approved ∧
    (SubmissionController.approvalCommitted
        ⟨⟨1, 1, 86400000, 0, 604799999, SubmissionStatus.pending, none, none,
          none⟩, ⟨0, 0, none⟩⟩ 7 1000 2).membership.currentStreak = 1 := by
  decide

/-- C9 counterexample: the weekly `verifySubmission` on a pending submission
with decision `rejected` stamps status, verifier and time but leaves the
score unset (`none`), not `0` — refuting the claim that rejection sets the
score to 0 in every variant. -/
theorem C9_counterexample_weekly_reject_score :
    LeaderboardController.verifySubmission
        ⟨1, 1, 86400000, 0, 604799999, SubmissionStatus.pending, none, none,
          none⟩ ⟨1, 0, 100⟩ (some ⟨0, 0, none⟩) Decision.rejected none 7 1000
      = VerifyResult.ok
          ⟨1, 1, 86400000, 0, 604799999, SubmissionStatus.rejected, none,
            some 7, some 1000⟩ (some ⟨0, 0, none⟩) ∧
    (none : Option ℚ) ≠ some 0 := by
  decide

/-- C9 (amended): rejecting a pending submission leaves the membership
completely unchanged in both variants; the daily variant sets the score to
0 while the weekly variant leaves it unset; both stamp verifier and decision
time. -/
theorem C9_rejection_frame (s : Submission)
    (mD : SubmissionController.TrackMembership)
    (mW : LeaderboardController.TrackMembership) (t : Track)
    (sc : Option ℚ) (v : Nat) (now : Int)
    (h : s.status = SubmissionStatus.pending) :
    SubmissionController.verifySubmission s (some mD) Decision.rejected v now
      = VerifyResult.ok
          { s with
            score := some 0
            status := SubmissionStatus.rejected
            verifiedBy := some v
            verifiedAt := some now } (some mD) ∧
    LeaderboardController.verifySubmission s t (some mW) Decision.rejected
        sc v now
      = VerifyResult.ok
          { s with
            status := SubmissionStatus.rejected
            verifiedBy := some v
            verifiedAt := some now } (some mW) := by
  constructor
  · simp [SubmissionController.verifySubmission, h]
  · simp [LeaderboardController.verifySubmission]

/-- Witness for C9 (amended) at a concrete pending submission. -/
theorem C9_witness :
    SubmissionController.verifySubmission
        ⟨1, 1, 86400000, 0, 604799999, SubmissionStatus.pending, none, none,
          none⟩ (some ⟨3, 5, some 0⟩) Decision.rejected 7 1000
      = VerifyResult.ok
          ⟨1, 1, 86400000, 0, 604799999, SubmissionStatus.rejected, some 0,
            some 7, some 1000⟩ (some ⟨3, 5, some 0⟩) ∧
    LeaderboardController.verifySubmission
        ⟨1, 1, 86400000, 0, 604799999, SubmissionStatus.pending, none, none,
          none⟩ ⟨1, 0, 100⟩ (some ⟨3, 5, some 0⟩) Decision.rejected none
        7 1000
      = VerifyResult.ok
          ⟨1, 1, 86400000, 0, 604799999, SubmissionStatus.rejected, none,
            some 7, some 1000⟩ (some ⟨3, 5, some 0⟩) :=
  C9_rejection_frame
    ⟨1, 1, 86400000, 0, 604799999, SubmissionStatus.pending, none, none,
      none⟩ ⟨3, 5, some 0⟩ ⟨3, 5, some 0⟩ ⟨1, 0, 100⟩ none 7 1000 rfl

/-- C10 counterexample: approving a pending submission whose (member, track)
pair has no membership does NOT abort: the daily `verifySubmission`
completes the approval (status `approved`, score 10 stamped) and silently
skips the streak update. -/
theorem C10_counterexample_missing_membership :
    SubmissionController.verifySubmission
        ⟨1, 1, 86400000, 0, 604799999, SubmissionStatus.pending, none, none,
          none⟩ none Decision.approved 7 1000
      = VerifyResult.ok
          ⟨1, 1, 86400000, 0, 604799999, SubmissionStatus.approved, some 10,
            some 7, some 1000⟩ none := by
  decide

/-- C10 (amended): in both variants, approving a pending submission with no
existing membership silently skips the streak update and still completes the
approval (score assigned, status `approved`, verifier and time stamped); no
membership is created or corrected. -/
theorem C10_missing_membership_skipped (s : Submission) (t : Track) (sc : ℚ)
    (v : Nat) (now : Int) (h : s.status = SubmissionStatus.pending)
    (h1 : t.minScore ≤ sc) (h2 : sc ≤ t.maxScore) :
    SubmissionController.verifySubmission s none Decision.approved v now
      = VerifyResult.ok
          { s with
            score := some SubmissionController.DAILY_SUBMISSION_POINTS
            status := SubmissionStatus.approved
            verifiedBy := some v
            verifiedAt := some now } none ∧
    LeaderboardController.verifySubmission s t none Decision.approved
        (some sc) v now
      = VerifyResult.ok
          { s with
            score := some sc
            status := SubmissionStatus.approved
            verifiedBy := some v
            verifiedAt := some now } none := by
  constructor
  · simp [SubmissionController.verifySubmission, h]
  · have hn : ¬ (sc < t.minScore ∨ sc > t.maxScore) := by
      push_neg
      exact ⟨h1, h2⟩
    simp [LeaderboardController.verifySubmission, hn]

/-- Witness for C10 (amended) at a concrete pending submission and score 50
within the track bounds [0, 100]. -/
theorem C10_witness :
    SubmissionController.verifySubmission
        ⟨1, 1, 86400000, 0, 604799999, SubmissionStatus.pending, none, none,
          none⟩ none Decision.approved 7 1000
      = VerifyResult.ok
          ⟨1, 1, 86400000, 0, 604799999, SubmissionStatus.approved,
            some SubmissionController.DAILY_SUBMISSION_POINTS, some 7,
            some 1000⟩ none ∧
    LeaderboardController.verifySubmission
        ⟨1, 1, 86400000, 0, 604799999, SubmissionStatus.pending, none, none,
          none⟩ ⟨1, 0, 100⟩ none Decision.approved (some 50) 7 1000
      = VerifyResult.ok
          ⟨1, 1, 86400000, 0, 604799999, SubmissionStatus.approved, some 50,
            some 7, some 1000⟩ none :=
  C10_missing_membership_skipped
    ⟨1, 1, 86400000, 0, 604799999, SubmissionStatus.pending, none, none,
      none⟩ ⟨1, 0, 100⟩ 50 7 1000 rfl (by norm_num) (by norm_num)

/-- C8: in both variants, a `createSubmission` attempt whose
(member, track, normalized-period-start) key is already present fails with
HTTP 409 and leaves the store unchanged; creating into a store with no such
key persists exactly one matching submission; and the at-most-one-per-key
invariant is preserved by every create. -/
theorem C8_submission_uniqueness :
    (∀ (store : List Submission) (u t : Nat) (today ws we : Int),
      (store.any (SubmissionController.matchesToday u t today) = true →
        SubmissionController.createSubmission store u t today ws we
          = (VerifyResult.error 409 "You have already submitted today",
             store)) ∧
      (store.countP (SubmissionController.matchesToday u t today) = 0 →
        (SubmissionController.createSubmission store u t today ws we).2.countP
            (SubmissionController.matchesToday u t today) = 1) ∧
      (store.countP (SubmissionController.matchesToday u t today) ≤ 1 →
        (SubmissionController.createSubmission store u t today ws we).2.countP
            (SubmissionController.matchesToday u t today) ≤ 1)) ∧
    (∀ (store : List Submission) (u t : Nat) (ws we : Int),
      (store.any (LeaderboardController.matchesWeek u t ws) = true →
        LeaderboardController.createSubmission store u t ws we
          = (VerifyResult.error 409 "You have already submitted for this week",
             store)) ∧
      (store.countP (LeaderboardController.matchesWeek u t ws) = 0 →
        (LeaderboardController.createSubmission store u t ws we).2.countP
            (LeaderboardController.matchesWeek u t ws) = 1) ∧
      (store.countP (LeaderboardController.matchesWeek u t ws) ≤ 1 →
        (LeaderboardController.createSubmission store u t ws we).2.countP
            (LeaderboardController.matchesWeek u t ws) ≤ 1)) := by
  constructor
  · intro store u t today ws we
    have hkey : SubmissionController.matchesToday u t today
        { userId := u, trackId := t, submissionDate := today,
          weekStart := ws, weekEnd := we,
          status := SubmissionStatus.pending, score := none,
          verifiedBy := none, verifiedAt := none } = true := by
      simp [SubmissionController.matchesToday]
    refine ⟨?_, ?_, ?_⟩
    · intro h
      simp [SubmissionController.createSubmission, h]
    · intro h
      have hany : store.any (SubmissionController.matchesToday u t today)
          = false := by
        rw [List.any_eq_false]
        intro x hx
        simp only [List.countP_eq_zero] at h
        exact h x hx
      simp [SubmissionController.createSubmission, hany, List.countP_cons,
        hkey, h]
    · intro h
      by_cases hany : store.any (SubmissionController.matchesToday u t today)
          = true
      · simp [SubmissionController.createSubmission, hany, h]
      · have h0 : store.countP (SubmissionController.matchesToday u t today)
            = 0 := by
          rw [List.countP_eq_zero]
          rw [Bool.not_eq_true, List.any_eq_false] at hany
          exact hany
        simp [SubmissionController.createSubmission, hany, List.countP_cons,
          hkey, h0]
  · intro store u t ws we
    have hkey : LeaderboardController.matchesWeek u t ws
        { userId := u, trackId := t, submissionDate := ws,
          weekStart := ws, weekEnd := we,
          status := SubmissionStatus.pending, score := none,
          verifiedBy := none, verifiedAt := none } = true := by
      simp [LeaderboardController.matchesWeek]
    refine ⟨?_, ?_, ?_⟩
    · intro h
      simp [LeaderboardController.createSubmission, h]
    · intro h
      have hany : store.any (LeaderboardController.matchesWeek u t ws)
          = false := by
        rw [List.any_eq_false]
        intro x hx
        simp only [List.countP_eq_zero] at h
        exact h x hx
      simp [LeaderboardController.createSubmission, hany, List.countP_cons,
        hkey, h]
    · intro h
      by_cases hany : store.any (LeaderboardController.matchesWeek u t ws)
          = true
      · simp [LeaderboardController.createSubmission, hany, h]
      · have h0 : store.countP (LeaderboardController.matchesWeek u t ws)
            = 0 := by
          rw [List.countP_eq_zero]
          rw [Bool.not_eq_true, List.any_eq_false] at hany
          exact hany
        simp [LeaderboardController.createSubmission, hany, List.countP_cons,
          hkey, h0]

/-- Witness for C8: from an empty store the first create persists exactly one
submission for the key and the second attempt with the same key fails 409
leaving the store unchanged, in both variants. -/
theorem C8_witness :
    ((SubmissionController.createSubmission [] 1 2 5 0 604799999).2.countP
        (SubmissionController.matchesToday 1 2 5) = 1) ∧
    (SubmissionController.createSubmission
        (SubmissionController.createSubmission [] 1 2 5 0 604799999).2
        1 2 5 0 604799999
      = (VerifyResult.error 409 "You have already submitted today",
         (SubmissionController.createSubmission [] 1 2 5 0 604799999).2)) ∧
    ((LeaderboardController.createSubmission [] 1 2 0 604799999).2.countP
        (LeaderboardController.matchesWeek 1 2 0) = 1) ∧
    (LeaderboardController.createSubmission
        (LeaderboardController.createSubmission [] 1 2 0 604799999).2
        1 2 0 604799999
      = (VerifyResult.error 409 "You have already submitted for this week",
         (LeaderboardController.createSubmission [] 1 2 0 604799999).2)) :=
  ⟨(C8_submission_uniqueness.1 [] 1 2 5 0 604799999).2.1 (by decide),
   (C8_submission_uniqueness.1
      (SubmissionController.createSubmission [] 1 2 5 0 604799999).2
      1 2 5 0 604799999).1 (by decide),
   (C8_submission_uniqueness.2 [] 1 2 0 604799999).2.1 (by decide),
   (C8_submission_uniqueness.2
      (LeaderboardController.createSubmission [] 1 2 0 604799999).2
      1 2 0 604799999).1 (by decide)⟩

/-- Rank assignment does not change the underlying scored entries. -/
theorem addRanks_map_dropRank (l : List LeaderboardService.ScoredEntry)
    (i : Nat) :
    (LeaderboardService.addRanks l i).map LeaderboardService.dropRank = l := by
  induction l generalizing i with
  | nil => rfl
  | cons e rest ih =>
      simp [LeaderboardService.addRanks, LeaderboardService.dropRank, ih]

/-- Rank assignment emits the consecutive ranks `i+1, i+2, …`. -/
theorem addRanks_map_rank (l : List LeaderboardService.ScoredEntry)
    (i : Nat) :
    (LeaderboardService.addRanks l i).map
        LeaderboardService.LeaderboardEntry.rank
      = List.range' (i + 1) l.length := by
  induction l generalizing i with
  | nil => rfl
  | cons e rest ih =>
      simp [LeaderboardService.addRanks, List.range', ih]

/-- Rank assignment preserves the total scores in order. -/
theorem addRanks_map_totalScore (l : List LeaderboardService.ScoredEntry)
    (i : Nat) :
    (LeaderboardService.addRanks l i).map
        LeaderboardService.LeaderboardEntry.totalScore
      = l.map LeaderboardService.ScoredEntry.totalScore := by
  induction l generalizing i with
  | nil => rfl
  | cons e rest ih =>
      simp [LeaderboardService.addRanks, ih]

/-- C2 (amended): each output entry carries
`totalScore = round2(baseScore * multiplier(currentStreak))`; the sequence is
sorted non-increasing by `totalScore` (tied entries keep the aggregation
input order — the stable sort applies no member-key tie-break); the output
is a permutation of the scored input rows; and `rank = 1 + position`
(strictly sequential, distinct even for ties). -/
theorem C2_leaderboard_amended (rows : List LeaderboardService.AggRow) :
    (∀ e ∈ LeaderboardService.getWeeklyLeaderboard rows,
      e.totalScore
        = (jsMathRound (e.baseScore
            * Utils.getStreakMultiplier e.currentStreak * 100) : ℚ) / 100) ∧
    ((LeaderboardService.getWeeklyLeaderboard rows).map
        LeaderboardService.LeaderboardEntry.totalScore).Sorted (· ≥ ·) ∧
    ((LeaderboardService.getWeeklyLeaderboard rows).map
        LeaderboardService.dropRank).Perm
      (rows.map LeaderboardService.scoreEntry) ∧
    (LeaderboardService.getWeeklyLeaderboard rows).map
        LeaderboardService.LeaderboardEntry.rank
      = List.range' 1 rows.length := by
  refine ⟨?_, ?_, ?_, ?_⟩
  · intro e he
    have hd : LeaderboardService.dropRank e
        ∈ List.insertionSort LeaderboardService.byTotalScoreDesc
            (rows.map LeaderboardService.scoreEntry) := by
      rw [← addRanks_map_dropRank (List.insertionSort
        LeaderboardService.byTotalScoreDesc
        (rows.map LeaderboardService.scoreEntry)) 0]
      exact List.mem_map_of_mem _ he
    rw [List.mem_insertionSort] at hd
    obtain ⟨g, hg, hge⟩ := List.mem_map.mp hd
    have h := congrArg LeaderboardService.ScoredEntry.totalScore hge
    have hb := congrArg LeaderboardService.ScoredEntry.baseScore hge
    have hc := congrArg LeaderboardService.ScoredEntry.currentStreak hge
    simp only [LeaderboardService.scoreEntry, LeaderboardService.dropRank]
      at h hb hc
    rw [← h, hb, hc]
  · have hs := List.sorted_insertionSort LeaderboardService.byTotalScoreDesc
      (rows.map LeaderboardService.scoreEntry)
    rw [LeaderboardService.getWeeklyLeaderboard, addRanks_map_totalScore]
    exact List.pairwise_map.mpr hs
  · rw [LeaderboardService.getWeeklyLeaderboard, addRanks_map_dropRank]
    exact List.perm_insertionSort _ _
  · rw [LeaderboardService.getWeeklyLeaderboard, addRanks_map_rank,
      (List.perm_insertionSort LeaderboardService.byTotalScoreDesc
        (rows.map LeaderboardService.scoreEntry)).length_eq,
      List.length_map]

/-- C2 counterexample: two rows with identical `totalScore` (10) submitted
with the larger member key first stay in that order — member 2 gets rank 1
and member 1 gets rank 2 — so ties are NOT broken by ascending
member-identity key. -/
theorem C2_counterexample_tie_order :
    (LeaderboardService.getWeeklyLeaderboard
        [⟨2, "b", "", 10, 1, 0, 0⟩, ⟨1, "a", "", 10, 1, 0, 0⟩]).map
        (fun e => (e.userId, e.totalScore, e.rank))
      = [(2, (10 : ℚ), 1), (1, (10 : ℚ), 2)] := by
  decide!

/-- Witness for C2 (amended): the single row (member 1, baseScore 20,
streak 5) yields the entry with multiplier 1.6, totalScore 32 and rank 1,
and its totalScore satisfies the rounding formula. -/
theorem C2_witness :
    (⟨1, "a", "", 20, 2, 5, 5, 8 / 5, 32, 1⟩ :
        LeaderboardService.LeaderboardEntry).totalScore
      = (jsMathRound ((⟨1, "a", "", 20, 2, 5, 5, 8 / 5, 32, 1⟩ :
            LeaderboardService.LeaderboardEntry).baseScore
          * Utils.getStreakMultiplier (⟨1, "a", "", 20, 2, 5, 5, 8 / 5, 32, 1⟩ :
            LeaderboardService.LeaderboardEntry).currentStreak * 100) : ℚ)
        / 100 :=
  (C2_leaderboard_amended [⟨1, "a", "", 20, 2, 5, 5⟩]).1
    ⟨1, "a", "", 20, 2, 5, 5, 8 / 5, 32, 1⟩ (by decide!)
